import Mathlib

/-!
# The controller of a network of filter processes (`controlador.c`)

A shallow embedding of the connection manager of `controlador.c`: the global
tables `nodes`, `nodespid` and `connections`, and the commands `node`,
`connect`, `disconnect`, `inject`, `remove` and `change` that edit them.

The embedding follows the controller process, that is, the parent side of every
`fork()`.  What the operating system answers (the value of a `fork()`, of an
`open()`, the bytes found in a local array that was never written) is an
explicit argument of the function that asks for it.  A function that can store
past the end of a local array returns an `Option`, `none` standing for that
undefined behaviour.
-/

namespace Controlador

/-! ## Data model -/

/-- Size of the global tables: `MAX_SIZE` is `PIPE_BUF` of `<limits.h>`,
which is 4096 on Linux. -/
def MAX_SIZE : Nat := 4096

/-- An index into the global tables `nodes`, `nodespid` and `connections`
(`atoi(options[1])` when it falls inside the arrays). -/
abbrev NodeId := Fin MAX_SIZE

/-- The record `struct fanout`: the pid of the relay process and the array
`outs` of the ids of its output nodes.  The field `numouts` of the source is
the length of that array. -/
structure Fanout where
  pid : Int
  outs : List Int
deriving DecidableEq, Repr

/-- The field `numouts` of `struct fanout`. -/
def Fanout.numouts (f : Fanout) : Nat := f.outs.length

/-- The global variables of the controller: `nodes[i]` tells whether node `i`
is in the network, `nodespid[i]` is the pid of its process, `connections[i]`
is the fanout that starts at node `i` (`none` for `NULL`). -/
@[ext]
structure State where
  nodes : NodeId → Int
  nodespid : NodeId → Int
  connections : NodeId → Option Fanout

/-- What `fork()` hands back to the controller, which is the parent of every
process it creates: `-1` when no child could be made, otherwise the pid of the
child, a positive number. -/
inductive ForkResult where
  | failed : ForkResult
  | child (p : Nat) : ForkResult
deriving DecidableEq, Repr

/-- The integer that the source stores in `pid`. -/
def ForkResult.toInt : ForkResult → Int
  | ForkResult.failed => -1
  | ForkResult.child p => (p : Int) + 1

/-- What the operating system answers while one `disconnect` runs: `stack k` is
the value found in cell `k` of the local array `outs` when the loop never
stored into that cell, `pid` is the value of the call of `fork()`. -/
structure Sys where
  stack : Nat → Int
  pid : ForkResult

/-- The function `init_network`: no node, no connection.  The array `nodespid`
is a global the function does not touch, so it holds zeros. -/
def init_network : State :=
  { nodes := fun _ => 0, nodespid := fun _ => 0, connections := fun _ => none }

/-- The function `create_fanout`: a fresh record holding a copy of the first
`numouts` cells of `outs`. -/
def create_fanout (pid : Int) (outs : List Int) (numouts : Nat) : Fanout :=
  { pid := pid, outs := outs.take numouts }

/-! ## Commands of the controller -/

/-- The function `add_node`.  The in-range id `n` is `atoi(options[1])`.  The
parameter `flag` only steers the child process; the controller stores the value
of `fork()` in `nodespid[n]` (also when it is `-1`), sets `nodes[n]` and returns
`0`, unless the node was there already, when it returns `2`. -/
def add_node (s : State) (n : NodeId) (flag : Int) (pid : ForkResult) : Int × State :=
  if s.nodes n ≠ 0 then (2, s)
  else
    let s1 := { s with nodespid := Function.update s.nodespid n pid.toInt }
    (0, { s1 with nodes := Function.update s1.nodes n 1 })

/-- The function `connect`.  `n` is `atoi(options[1])` and `newouts` are
`atoi(options[2])`, ..., `atoi(options[numoptions-1])`.  The local array `outs`
is declared with `numoptions - 2` cells (`size`) before the outputs of the
fanout that was at `n` are counted into `numouts`; the loops then store
`numouts` values into it, the old outputs first and the new ones after them.
A store past the last cell of the array is undefined behaviour: the function
gives `none` for it.  Otherwise it gives the value returned and the tables. -/
def connect (s : State) (n : NodeId) (newouts : List Int) (pid : ForkResult) :
    Option (Int × State) :=
  let numouts := newouts.length
  let size := numouts
  let r : Nat × List Int × State :=
    match s.connections n with
    | some f =>
      (numouts + f.numouts, f.outs, { s with connections := Function.update s.connections n none })
    | none => (numouts, [], s)
  let numouts := r.1
  let outs := r.2.1 ++ newouts
  let s1 := r.2.2
  if size < outs.length then none
  else if pid.toInt = -1 then some (1, s1)
  else
    some (0, { s1 with connections :=
                Function.update s1.connections n (some (create_fanout pid.toInt outs numouts)) })

/-- The function `disconnect`.  `a` is `atoi(options[1])`, `b` is
`atoi(options[2])`.  In the branch that rebuilds the fanout the local array
`outs` has `numouts - 1` cells; the loop stores into its first cells the
outputs that differ from `b`, and the cells it does not reach hold what the
stack held (`sys.stack`). -/
def disconnect (s : State) (a : NodeId) (b : Int) (sys : Sys) : Int × State :=
  match s.connections a with
  | some f =>
    let numouts := f.numouts
    let found := f.outs.any (fun o => o == b)
    if !found then (2, s)
    else if numouts = 1 then
      (0, { s with connections := Function.update s.connections a none })
    else
      let numouts := numouts - 1
      let kept := f.outs.filter (fun o => o != b)
      let outs := kept ++ (List.range' kept.length (numouts - kept.length)).map sys.stack
      let s1 := { s with connections := Function.update s.connections a none }
      if sys.pid.toInt = -1 then (1, s1)
      else
        (0, { s1 with connections :=
                Function.update s1.connections a (some (create_fanout sys.pid.toInt outs numouts)) })
  | none => (2, s)

/-- The function `inject`.  `a` is `atoi(options[1])`, `fd` is the value of
`open()` and `pid` the value of `fork()`.  The tables are never written. -/
def inject (s : State) (a : NodeId) (fd : Int) (pid : ForkResult) : Int × State :=
  if s.nodes a = 0 then (2, s)
  else if fd = -1 then (1, s)
  else if pid.toInt = -1 then (1, s)
  else (0, s)

/-- One turn of the outer loop of `remove_node`, for the index `i`: when the
fanout at `i` has `a` among its outputs, `disconnect i a` is run once (the
inner loop leaves at the first hit) and its result is thrown away. -/
def remove_step (a : NodeId) (sys : NodeId → Sys) (s : State) (i : NodeId) : State :=
  match s.connections i with
  | some f =>
    if f.outs.any (fun o => o == (a.val : Int)) then (disconnect s i (a.val : Int) (sys i)).2
    else s
  | none => s

/-- The function `remove_node`.  `a` is `atoi(options[1])`; `sys i` is what the
operating system answers to the `disconnect` run for index `i`; `f1` and `f2`
are the values of the two calls of `fork()` that run `rm`. -/
def remove_node (s : State) (a : NodeId) (sys : NodeId → Sys) (f1 f2 : ForkResult) :
    Int × State :=
  if s.nodes a = 0 then (2, s)
  else
    let s1 :=
      match s.connections a with
      | some _ => { s with connections := Function.update s.connections a none }
      | none => s
    let s2 := (List.finRange MAX_SIZE).foldl (remove_step a sys) s1
    if f1.toInt = -1 then (1, s2)
    else if f2.toInt = -1 then (1, s2)
    else (0, { s2 with nodes := Function.update s2.nodes a 0 })

/-- The function `change`.  `a` is `atoi(options[1])`; `sys`, `f1`, `f2` go to
`remove_node`, `npid` to `add_node`, and `pid` is the value of the call of
`fork()` that starts the new fanout. -/
def change (s : State) (a : NodeId) (flag : Int) (sys : NodeId → Sys) (f1 f2 npid pid : ForkResult) :
    Int × State :=
  if s.nodes a = 0 then (2, s)
  else
    match s.connections a with
    | some f =>
      let numouts := f.numouts
      let outs := f.outs
      let s1 := (remove_node s a sys f1 f2).2
      let s2 := (add_node s1 a flag npid).2
      if pid.toInt = -1 then (1, s2)
      else
        (0, { s2 with connections :=
                Function.update s2.connections a (some (create_fanout pid.toInt outs numouts)) })
    | none =>
      let s1 := (remove_node s a sys f1 f2).2
      let s2 := (add_node s1 a flag npid).2
      (0, s2)

/-! ## The interpreter -/

/-- One line given to `interpretador`, after `strtok` and `atoi`, together with
what the operating system answers while the command runs. -/
inductive Command where
  | node (id : NodeId) (cmd : String) (pid : ForkResult) : Command
  | connect (n : NodeId) (outs : List Int) (pid : ForkResult) : Command
  | disconnect (a : NodeId) (b : Int) (sys : Sys) : Command
  | inject (a : NodeId) (fd : Int) (pid : ForkResult) : Command
  | remove (a : NodeId) (sys : NodeId → Sys) (f1 f2 : ForkResult) : Command
  | change (a : NodeId) (cmd : String) (sys : NodeId → Sys) (f1 f2 npid pid : ForkResult) : Command
  | debug : Command
  | unknown : Command

/-- The flag that `interpretador` passes to `add_node` and `change`: `0` for
the components `const`, `filter`, `window` and `spawn`, `1` for any other
program. -/
def discard_flag (cmd : String) : Int :=
  if cmd ≠ "const" ∧ cmd ≠ "filter" ∧ cmd ≠ "window" ∧ cmd ≠ "spawn" then 1 else 0

/-- The function `interpretador`: the value it returns and the tables
afterwards, `none` when the command runs into undefined behaviour. -/
def interpretador (s : State) : Command → Option (Int × State)
  | Command.node id cmd pid => some (add_node s id (discard_flag cmd) pid)
  | Command.connect n outs pid => connect s n outs pid
  | Command.disconnect a b sys => some (disconnect s a b sys)
  | Command.inject a fd pid => some (inject s a fd pid)
  | Command.remove a sys f1 f2 => some (remove_node s a sys f1 f2)
  | Command.change a cmd sys f1 f2 npid pid =>
    some (change s a (discard_flag cmd) sys f1 f2 npid pid)
  | Command.debug => some (0, s)
  | Command.unknown => some (1, s)

/-- The loop of `main`: the commands are interpreted one after the other and
the values they return are dropped.  The result is `none` when one of the
commands runs into undefined behaviour. -/
def run (s : State) : List Command → Option State
  | [] => some s
  | c :: cs =>
    match interpretador s c with
    | some r => run r.2 cs
    | none => none

/-- A state the controller can be in: the tables after `init_network` and some
finite sequence of commands. -/
def Reachable (s : State) : Prop := ∃ cmds : List Command, run init_network cmds = some s

/-- The tables after a run from the empty network; the empty network itself
when the run has no defined result. -/
def state_after (cmds : List Command) : State := (run init_network cmds).getD init_network

/-! ## Vocabulary of the statements -/

/-- Node `i` is in the network. -/
def live (s : State) (i : NodeId) : Prop := s.nodes i ≠ 0

instance live_decidable (s : State) (i : NodeId) : Decidable (live s i) :=
  inferInstanceAs (Decidable (s.nodes i ≠ 0))

/-- The output list recorded for node `i`: `none` when no fanout starts at `i`. -/
def sinks (s : State) (i : NodeId) : Option (List Int) := (s.connections i).map Fanout.outs

/-- The output list of the fanout at `i`, empty when there is none. -/
def sinks_or_nil (s : State) (i : NodeId) : List Int := ((s.connections i).map Fanout.outs).getD []

/-- Some node in the network has the integer `b` as its id. -/
def live_id (s : State) (b : Int) : Prop := ∃ i : NodeId, (i.val : Int) = b ∧ live s i

/-! ## Closed forms used by the proofs -/

/-- The value `disconnect a b` returns, read off the fanout found at `a`. -/
def disconnect_code (b : Int) (sys : Sys) : Option Fanout → Int
  | none => 2
  | some f =>
    if b ∈ f.outs then
      if f.outs.length = 1 then 0
      else if sys.pid = ForkResult.failed then 1
      else 0
    else 2

/-- The entry `connections[a]` that `disconnect a b` leaves, read off the
fanout found at `a`. -/
def disconnect_relay (b : Int) (sys : Sys) : Option Fanout → Option Fanout
  | none => none
  | some f =>
    if b ∈ f.outs then
      if f.outs.length = 1 then none
      else if sys.pid = ForkResult.failed then none
      else
        let kept := f.outs.filter (fun o => o != b)
        some { pid := sys.pid.toInt,
               outs := (kept ++ (List.range' kept.length (f.outs.length - 1 - kept.length)).map
                          sys.stack).take (f.outs.length - 1) }
    else some f

/-- The table of connections after the two loops of `remove_node a`. -/
def relays_after_remove (s : State) (a : NodeId) (sys : NodeId → Sys) : NodeId → Option Fanout :=
  fun j => if j = a then none else disconnect_relay (a.val : Int) (sys j) (s.connections j)

/-! ## Concrete inputs -/

/-- Node id 1. -/
def n1 : NodeId := ⟨1, by decide⟩

/-- Node id 2. -/
def n2 : NodeId := ⟨2, by decide⟩

/-- Node id 5. -/
def n5 : NodeId := ⟨5, by decide⟩

/-- An operating system whose stack holds zeros and whose `fork()` gives pid 40. -/
def sys_zero : Sys := { stack := fun _ => 0, pid := ForkResult.child 39 }

/-- An operating system whose stack holds the value 2 and whose `fork()` gives
pid 40. -/
def sys_two : Sys := { stack := fun _ => 2, pid := ForkResult.child 39 }

/-- The network after `connect 1 2 3 2 4` on the empty network. -/
def net_dup : State := state_after [Command.connect n1 [2, 3, 2, 4] (ForkResult.child 7)]

/-- The network after `connect 1 2 3` on the empty network. -/
def net_two : State := state_after [Command.connect n1 [2, 3] (ForkResult.child 7)]

/-- The network after `node 2 cat` and `connect 1 2 2`. -/
def net_twice : State :=
  state_after
    [Command.node n2 "cat" (ForkResult.child 10), Command.connect n1 [2, 2] (ForkResult.child 20)]

/-- The network after `node 1 cat` and `connect 1 2`. -/
def net_one : State :=
  state_after
    [Command.node n1 "cat" (ForkResult.child 10), Command.connect n1 [2] (ForkResult.child 20)]

/-- The network after `node 5 cat`. -/
def net_five : State := state_after [Command.node n5 "cat" (ForkResult.child 10)]

/-- The network after `connect 1 2` on the empty network: a fanout between
nodes that were never created. -/
def net_orphan : State := state_after [Command.connect n1 [2] (ForkResult.child 5)]

/-- The empty `connect 1`. -/
def cmds_empty_connect : List Command := [Command.connect n1 [] (ForkResult.child 5)]

/-- The commands `connect 1 2 2`, `disconnect 1 2`. -/
def cmds_twice_disconnect : List Command :=
  [Command.connect n1 [2, 2] (ForkResult.child 5), Command.disconnect n1 2 sys_zero]

/-- The commands `node 1 cat`, `node 2 cat`, `connect 1 2 2`. -/
def cmds_duplicate : List Command :=
  [Command.node n1 "cat" (ForkResult.child 10), Command.node n2 "cat" (ForkResult.child 11),
    Command.connect n1 [2, 2] (ForkResult.child 20)]

/-! ## Conditions on command sequences -/

/-- The condition `cond` holds for every command of the sequence, each in the
state it runs in, as far as the run is defined. -/
def holds_along (cond : State → Command → Prop) : State → List Command → Prop
  | _, [] => True
  | s, c :: cs =>
    cond s c ∧
      match interpretador s c with
      | some r => holds_along cond r.2 cs
      | none => True

/-- The command takes away no output that a fanout lists more than once: a
`disconnect a b` finds `b` at most once among the outputs of `a`, a `remove a`
or `change a` finds `a` at most once among the outputs of every other source.
The other commands carry no condition. -/
def takes_single (s : State) : Command → Prop
  | Command.disconnect a b _ => ∀ f, s.connections a = some f → f.outs.count b ≤ 1
  | Command.remove a _ _ _ =>
    ∀ j f, j ≠ a → s.connections j = some f → f.outs.count (a.val : Int) ≤ 1
  | Command.change a _ _ _ _ _ _ =>
    ∀ j f, j ≠ a → s.connections j = some f → f.outs.count (a.val : Int) ≤ 1
  | _ => True

/-- A `connect` names a source and outputs that are in the network; the other
commands carry no condition. -/
def connects_live (s : State) : Command → Prop
  | Command.connect n outs _ => live s n ∧ ∀ b ∈ outs, live_id s b
  | _ => True

/-- A command as the data model expects it: a `connect` names nodes of the
network, and no command takes away an output that is listed more than once. -/
def well_formed (s : State) (c : Command) : Prop := connects_live s c ∧ takes_single s c

/-- Every command of the sequence is well formed in the state it runs in. -/
def well_formed_run (s : State) (cmds : List Command) : Prop := holds_along well_formed s cmds

/-- No command of the sequence takes away an output listed more than once. -/
def takes_single_run (s : State) (cmds : List Command) : Prop := holds_along takes_single s cmds

/-- Every fanout of the table starts at a node of the network and lists only
nodes of the network. -/
def relays_ok (s : State) : Prop :=
  ∀ i f, s.connections i = some f → live s i ∧ ∀ b ∈ f.outs, live_id s b

/-! ## Outputs supplied by the commands -/

/-- The output ids that a command hands to `connect`; none for the other
commands. -/
def supplied_by : Command → List Int
  | Command.connect _ outs _ => outs
  | _ => []

/-- The output ids that the `connect` commands of a sequence supply. -/
def supplied (cmds : List Command) : List Int := cmds.flatMap supplied_by

/-- A `connect` names at least one output; the other commands carry no
condition. -/
def gives_output : Command → Prop
  | Command.connect _ outs _ => outs ≠ []
  | _ => True

/-- Every fanout of the table has at least one output. -/
def relays_nonempty (s : State) : Prop := ∀ i f, s.connections i = some f → f.outs ≠ []

/-- Every fanout of the table lists only ids that satisfy `p`. -/
def relays_from (s : State) (p : Int → Prop) : Prop :=
  ∀ i f, s.connections i = some f → ∀ b ∈ f.outs, p b

/-! ## The relay worker -/

/-- One turn of the loop of `fanout`: the value of the global `stopfan` when the
condition of the loop tests it, the value that `readln(fdi, buffer, PIPE_BUF)`
returns, and the cells of the array `buffer` after that call (characters as
numbers). -/
structure Turn where
  stopfan : Int
  bytes : Int
  buffer : Nat → Nat

/-- One call `write(fdos[i], buffer, bytes)`: the index `i` of the output and
the bytes handed to it. -/
structure Write where
  out : Nat
  data : List Nat
deriving DecidableEq, Repr

/-- The record of a turn: the first `bytes` cells of `buffer`. -/
def record (t : Turn) : List Nat := (List.range t.bytes.toNat).map t.buffer

/-- The value of `strcmp(buffer, "-")` as the condition uses it: `0` exactly when
the first cell holds the minus sign (45) and the second cell holds the
terminator 0, and a non-zero value otherwise. -/
def strcmp_minus (buffer : Nat → Nat) : Int :=
  if buffer 0 = 45 ∧ buffer 1 = 0 then 0 else 1

/-- The function `fanout`, from the loop on: the calls of `write` it makes, in
order, with `numouts` outputs.  The loop ends at the first turn that finds
`stopfan` set or gets no byte from `readln`, and the process exits. -/
def fanout (numouts : Nat) : List Turn → List Write
  | [] => []
  | t :: ts =>
    if t.stopfan ≠ 0 then []
    else if t.bytes > 0 then
      (if strcmp_minus t.buffer ≠ 0 then
          (List.range numouts).map (fun i => { out := i, data := record t })
        else []) ++ fanout numouts ts
    else []

/-- The array cells that hold the characters of `l`, zeros after them. -/
def cells (l : List Nat) : Nat → Nat := fun k => l.getD k 0

/-- The record of the turn sits in the buffer as a C string: no cell of the
record holds 0 and the cell after the record holds 0. -/
def c_string (t : Turn) : Prop :=
  (∀ k, k < t.bytes.toNat → t.buffer k ≠ 0) ∧ t.buffer t.bytes.toNat = 0

/-- The writes the specification describes: for each record, in order, that is
not the one-character record `-`, one write of the record to output 0, then
output 1, and so on up to output `numouts - 1`. -/
def expected_writes (numouts : Nat) (turns : List Turn) : List Write :=
  (turns.filter (fun t => decide (record t ≠ [45]))).flatMap
    (fun t => (List.range numouts).map (fun i => { out := i, data := record t }))

/-- The network after `node 2 cat` and `connect 1 2 3`. -/
def net_inbound : State :=
  state_after
    [Command.node n2 "cat" (ForkResult.child 10), Command.connect n1 [2, 3] (ForkResult.child 20)]

/-- An operating system whose stack holds zeros and whose `fork()` fails. -/
def sys_failed : Sys := { stack := fun _ => 0, pid := ForkResult.failed }

/-! ## Lemmas on lists and on the single commands -/

theorem any_beq_iff_mem (l : List Int) (b : Int) : l.any (fun o => o == b) = true ↔ b ∈ l := by
  constructor
  · intro h
    obtain ⟨x, hx, hxb⟩ := List.any_eq_true.1 h
    have : x = b := by simpa using hxb
    exact this ▸ hx
  · intro h
    exact List.any_eq_true.2 ⟨b, h, by simp⟩

theorem toInt_eq_neg_one_iff (p : ForkResult) : p.toInt = -1 ↔ p = ForkResult.failed := by
  cases p with
  | failed => simp [ForkResult.toInt]
  | child k => simp [ForkResult.toInt]; omega

theorem length_filter_ne_add_count (l : List Int) (b : Int) :
    (l.filter (fun o => o != b)).length + l.count b = l.length := by
  induction l with
  | nil => simp
  | cons x t ih =>
    by_cases h : x = b
    · subst h; simp [List.filter_cons]; omega
    · have h2 : (x == b) = false := by simpa using h
      simp [List.filter_cons, List.count_cons, h, h2]; omega

theorem filter_ne_eq_erase (l : List Int) (b : Int) (h : l.count b = 1) :
    l.filter (fun o => o != b) = l.erase b := by
  induction l with
  | nil => simp at h
  | cons x t ih =>
    by_cases hx : x = b
    · subst hx
      have h0 : t.count x = 0 := by simpa [List.count_cons] using h
      have hn : x ∉ t := List.count_eq_zero.mp h0
      simp [List.filter_cons]
      intro y hy hyx
      exact hn (hyx ▸ hy)
    · have h1 : t.count b = 1 := by simpa [List.count_cons, hx] using h
      have hxb : (x == b) = false := by simpa using hx
      simp [List.filter_cons, hx, List.erase_cons, hxb, ih h1]

theorem disconnect_state (s : State) (a : NodeId) (b : Int) (sys : Sys) :
    (disconnect s a b sys).2 =
      { s with connections :=
          Function.update s.connections a (disconnect_relay b sys (s.connections a)) } := by
  unfold disconnect
  cases hc : s.connections a with
  | none => simp [disconnect_relay, ← hc]
  | some f =>
    by_cases hb : b ∈ f.outs
    · have hany : f.outs.any (fun o => o == b) = true := (any_beq_iff_mem _ _).2 hb
      by_cases h1 : f.outs.length = 1
      · simp [disconnect_relay, hb, hany, h1, Fanout.numouts]
      · by_cases hp : sys.pid = ForkResult.failed
        · simp [disconnect_relay, hb, hany, h1, Fanout.numouts, hp, ForkResult.toInt]
        · have hp2 : ¬ sys.pid.toInt = -1 := fun h => hp ((toInt_eq_neg_one_iff _).1 h)
          simp [disconnect_relay, hb, hany, h1, Fanout.numouts, hp, hp2, create_fanout]
    · have hany : f.outs.any (fun o => o == b) = false := by
        rw [← Bool.not_eq_true, any_beq_iff_mem]; exact hb
      simp [disconnect_relay, hb, hany, ← hc]


theorem remove_step_state (a : NodeId) (sys : NodeId → Sys) (s : State) (i : NodeId) :
    remove_step a sys s i =
      { s with connections :=
          (Function.update s.connections i
            (disconnect_relay (a.val : Int) (sys i) (s.connections i))) } := by
  unfold remove_step
  cases hc : s.connections i with
  | none => simp [disconnect_relay, ← hc]
  | some f =>
    by_cases hb : (a.val : Int) ∈ f.outs
    · have hany : f.outs.any (fun o => o == (a.val : Int)) = true := (any_beq_iff_mem _ _).2 hb
      simp only [hany, if_true]
      rw [disconnect_state, hc]
    · have hany : f.outs.any (fun o => o == (a.val : Int)) = false := by
        rw [← Bool.not_eq_true, any_beq_iff_mem]; exact hb
      simp [disconnect_relay, hb, hany, ← hc]

theorem foldl_remove_step (a : NodeId) (sys : NodeId → Sys) (l : List NodeId) (hl : l.Nodup)
    (s : State) :
    l.foldl (remove_step a sys) s =
      { s with connections := fun j =>
          if j ∈ l then disconnect_relay (a.val : Int) (sys j) (s.connections j)
          else s.connections j } := by
  induction l generalizing s with
  | nil => simp
  | cons i t ih =>
    have hi : i ∉ t := (List.nodup_cons.1 hl).1
    rw [List.foldl_cons, ih (List.nodup_cons.1 hl).2, remove_step_state]
    apply State.ext
    · rfl
    · rfl
    · funext j
      simp only
      by_cases hji : j = i
      · subst hji
        simp [hi]
      · by_cases hjt : j ∈ t
        · simp [hjt, hji, Function.update_noteq hji]
        · simp [hjt, hji, Function.update_noteq hji]

theorem remove_loop_eq (s : State) (a : NodeId) (sys : NodeId → Sys) :
    (List.finRange MAX_SIZE).foldl (remove_step a sys)
        (match s.connections a with
          | some _ => { s with connections := Function.update s.connections a none }
          | none => s) =
      { s with connections := relays_after_remove s a sys } := by
  rw [foldl_remove_step a sys _ (List.nodup_finRange _)]
  apply State.ext
  · cases s.connections a <;> rfl
  · cases s.connections a <;> rfl
  · funext j
    simp only [List.mem_finRange, if_true]
    unfold relays_after_remove
    by_cases hja : j = a
    · subst hja
      rw [if_pos rfl]
      cases hc : s.connections j with
      | none => simp [disconnect_relay, hc]
      | some f => simp [disconnect_relay]
    · rw [if_neg hja]
      cases hc : s.connections a with
      | none => rfl
      | some f => simp [Function.update_noteq hja]

theorem remove_node_eq (s : State) (a : NodeId) (sys : NodeId → Sys) (f1 f2 : ForkResult) :
    remove_node s a sys f1 f2 =
      if s.nodes a = 0 then (2, s)
      else if f1 = ForkResult.failed ∨ f2 = ForkResult.failed then
        (1, { s with connections := relays_after_remove s a sys })
      else
        (0, { s with connections := relays_after_remove s a sys,
                     nodes := Function.update s.nodes a 0 }) := by
  unfold remove_node
  by_cases hn : s.nodes a = 0
  · rw [if_pos hn, if_pos hn]
  · rw [if_neg hn, if_neg hn]
    show (if f1.toInt = -1 then (1, (List.finRange MAX_SIZE).foldl (remove_step a sys) _)
      else if f2.toInt = -1 then (1, (List.finRange MAX_SIZE).foldl (remove_step a sys) _)
      else (0, { (List.finRange MAX_SIZE).foldl (remove_step a sys) _ with
                  nodes := Function.update
                    ((List.finRange MAX_SIZE).foldl (remove_step a sys) _).nodes a 0 })) = _
    rw [remove_loop_eq]
    by_cases h1 : f1 = ForkResult.failed
    · rw [if_pos ((toInt_eq_neg_one_iff _).2 h1), if_pos (Or.inl h1)]
    · rw [if_neg (fun h => h1 ((toInt_eq_neg_one_iff _).1 h))]
      by_cases h2 : f2 = ForkResult.failed
      · rw [if_pos ((toInt_eq_neg_one_iff _).2 h2), if_pos (Or.inr h2)]
      · rw [if_neg (fun h => h2 ((toInt_eq_neg_one_iff _).1 h)),
          if_neg (fun h => h.elim h1 h2)]

theorem add_node_connections (s : State) (n : NodeId) (flag : Int) (pid : ForkResult) :
    (add_node s n flag pid).2.connections = s.connections := by
  unfold add_node
  by_cases h : s.nodes n = 0 <;> simp [h]

theorem add_node_live (s : State) (n : NodeId) (flag : Int) (pid : ForkResult) :
    live (add_node s n flag pid).2 n := by
  unfold add_node live
  by_cases h : s.nodes n = 0 <;> simp [h]

theorem add_node_nodes_of_ne (s : State) (n i : NodeId) (flag : Int) (pid : ForkResult)
    (hi : i ≠ n) : (add_node s n flag pid).2.nodes i = s.nodes i := by
  unfold add_node
  by_cases h : s.nodes n = 0 <;> simp [h, Function.update_noteq hi]

theorem add_node_of_live (s : State) (n : NodeId) (flag : Int) (pid : ForkResult)
    (h : live s n) : add_node s n flag pid = (2, s) := by
  unfold add_node
  exact if_pos h

theorem remove_node_connections (s : State) (a : NodeId) (sys : NodeId → Sys)
    (f1 f2 : ForkResult) (h : live s a) :
    (remove_node s a sys f1 f2).2.connections = relays_after_remove s a sys := by
  rw [remove_node_eq, if_neg h]
  by_cases hf : f1 = ForkResult.failed ∨ f2 = ForkResult.failed
  · rw [if_pos hf]
  · rw [if_neg hf]

theorem remove_node_nodes_of_ne (s : State) (a i : NodeId) (sys : NodeId → Sys)
    (f1 f2 : ForkResult) (hi : i ≠ a) :
    (remove_node s a sys f1 f2).2.nodes i = s.nodes i := by
  rw [remove_node_eq]
  by_cases h : s.nodes a = 0
  · rw [if_pos h]
  · rw [if_neg h]
    by_cases hf : f1 = ForkResult.failed ∨ f2 = ForkResult.failed
    · rw [if_pos hf]
    · rw [if_neg hf]
      exact Function.update_noteq hi _ _

theorem remove_node_fst (s : State) (a : NodeId) (sys : NodeId → Sys) (f1 f2 : ForkResult) :
    (remove_node s a sys f1 f2).1 =
      if s.nodes a = 0 then 2
      else if f1 = ForkResult.failed ∨ f2 = ForkResult.failed then 1 else 0 := by
  rw [remove_node_eq]
  by_cases h : s.nodes a = 0
  · rw [if_pos h, if_pos h]
  · rw [if_neg h, if_neg h]
    by_cases hf : f1 = ForkResult.failed ∨ f2 = ForkResult.failed
    · rw [if_pos hf, if_pos hf]
    · rw [if_neg hf, if_neg hf]

theorem relays_after_remove_self (s : State) (a : NodeId) (sys : NodeId → Sys) :
    relays_after_remove s a sys a = none := by
  unfold relays_after_remove
  rw [if_pos rfl]

theorem disconnect_relay_of_not_mem (b : Int) (sys : Sys) (r : Option Fanout)
    (h : ∀ f, r = some f → b ∉ f.outs) : disconnect_relay b sys r = r := by
  cases r with
  | none => rfl
  | some f => simp [disconnect_relay, h f rfl]

theorem disconnect_fst (s : State) (a : NodeId) (b : Int) (sys : Sys) :
    (disconnect s a b sys).1 = disconnect_code b sys (s.connections a) := by
  unfold disconnect
  cases hc : s.connections a with
  | none => simp [disconnect_code]
  | some f =>
    by_cases hb : b ∈ f.outs
    · have hany : f.outs.any (fun o => o == b) = true := (any_beq_iff_mem _ _).2 hb
      by_cases h1 : f.outs.length = 1
      · simp [disconnect_code, hb, hany, h1, Fanout.numouts]
      · by_cases hp : sys.pid = ForkResult.failed
        · simp [disconnect_code, hb, hany, h1, Fanout.numouts, hp, ForkResult.toInt]
        · have hp2 : ¬ sys.pid.toInt = -1 := fun h => hp ((toInt_eq_neg_one_iff _).1 h)
          simp [disconnect_code, hb, hany, h1, Fanout.numouts, hp, hp2]
    · have hany : f.outs.any (fun o => o == b) = false := by
        rw [← Bool.not_eq_true, any_beq_iff_mem]; exact hb
      simp [disconnect_code, hb, hany]

/-- When `b` occurs once in the outputs, the rebuilt array has no cell left
unwritten: the new fanout holds the old outputs without `b`. -/
theorem disconnect_relay_of_count_one (b : Int) (sys : Sys) (f : Fanout)
    (hcount : f.outs.count b = 1) (hp : sys.pid ≠ ForkResult.failed) :
    (disconnect_relay b sys (some f)).map Fanout.outs =
      if f.outs.erase b = [] then none else some (f.outs.erase b) := by
  have hb : b ∈ f.outs := List.count_pos_iff.1 (by omega)
  have hlen := length_filter_ne_add_count f.outs b
  have hfe := filter_ne_eq_erase f.outs b hcount
  have hel : (f.outs.erase b).length = f.outs.length - 1 := List.length_erase_of_mem hb
  by_cases h1 : f.outs.length = 1
  · have : f.outs.erase b = [] := List.length_eq_zero.1 (by omega)
    simp [disconnect_relay, hb, h1, this]
  · have hne : f.outs.erase b ≠ [] := by
      intro h
      have hpos : 0 < f.outs.length := List.length_pos_of_mem hb
      rw [h] at hel
      simp at hel
      omega
    have hk : (f.outs.filter (fun o => o != b)).length = f.outs.length - 1 := by omega
    simp only [disconnect_relay, hb, h1, hp, if_true, if_false, Option.map_some', hne, hk,
      Nat.sub_self, List.range'_zero, List.map_nil, List.append_nil]
    rw [← hk, List.take_length, hfe]

theorem connect_eq (s : State) (n : NodeId) (newouts : List Int) (pid : ForkResult) :
    connect s n newouts pid =
      if sinks_or_nil s n = [] then
        some (if pid = ForkResult.failed then 1 else 0,
          { s with connections :=
              (Function.update s.connections n
                (if pid = ForkResult.failed then none
                 else some { pid := pid.toInt, outs := newouts })) })
      else none := by
  unfold connect
  cases hc : s.connections n with
  | none =>
    have hnil : sinks_or_nil s n = [] := by simp [sinks_or_nil, hc]
    rw [if_pos hnil]
    by_cases hp : pid = ForkResult.failed
    · simp [hp, ForkResult.toInt, ← hc]
    · have hp2 : ¬ pid.toInt = -1 := fun h => hp ((toInt_eq_neg_one_iff _).1 h)
      simp [hp, hp2, create_fanout]
  | some f =>
    have hs : sinks_or_nil s n = f.outs := by simp [sinks_or_nil, hc]
    rw [hs]
    by_cases hnil : f.outs = []
    · rw [if_pos hnil]
      by_cases hp : pid = ForkResult.failed
      · simp [hp, ForkResult.toInt, hnil]
      · have hp2 : ¬ pid.toInt = -1 := fun h => hp ((toInt_eq_neg_one_iff _).1 h)
        simp [hp, hp2, create_fanout, hnil, Fanout.numouts]
    · rw [if_neg hnil]
      have hpos : 0 < f.outs.length := List.length_pos.2 hnil
      have hlt : newouts.length < (f.outs ++ newouts).length := by
        rw [List.length_append]
        omega
      simp only [hlt, if_true]

/-- Claim C2, counterexample: on the fanout `[2, 3, 2, 4]` at node 1,
`disconnect 1 2` succeeds and leaves the output list `[3, 4, 0]` (both entries
2 dropped, last cell never written), not `[3, 2, 4]`. -/
theorem disconnect_duplicate_sink_drops_all :
    sinks net_dup n1 = some [2, 3, 2, 4] ∧
      (disconnect net_dup n1 2 sys_zero).1 = 0 ∧
      sinks (disconnect net_dup n1 2 sys_zero).2 n1 = some [3, 4, 0] ∧
      sinks (disconnect net_dup n1 2 sys_zero).2 n1 ≠ some (List.erase [2, 3, 2, 4] 2) := by
  decide

/-- Claim C2, amended: when the fanout at `a` has `b` exactly once among its
outputs and `disconnect a b` returns success, the table has no fanout at `a` if
`b` was the only output, and otherwise a fanout whose output list is the old
one with that entry removed, the others kept in order. -/
theorem disconnect_removes_single_sink (s : State) (a : NodeId) (b : Int) (sys : Sys) (f : Fanout)
    (hrel : s.connections a = some f) (hcount : f.outs.count b = 1)
    (hok : (disconnect s a b sys).1 = 0) :
    sinks (disconnect s a b sys).2 a =
      if f.outs.erase b = [] then none else some (f.outs.erase b) := by
  have hb : b ∈ f.outs := List.count_pos_iff.1 (by omega)
  rw [disconnect_fst, hrel] at hok
  simp only [sinks, disconnect_state, Function.update_same, hrel]
  by_cases h1 : f.outs.length = 1
  · have hel : (f.outs.erase b).length = f.outs.length - 1 := List.length_erase_of_mem hb
    have : f.outs.erase b = [] := List.length_eq_zero.1 (by omega)
    simp [disconnect_relay, hb, h1, this]
  · have hp : sys.pid ≠ ForkResult.failed := by
      intro h
      simp [disconnect_code, hb, h1, h] at hok
    exact disconnect_relay_of_count_one b sys f hcount hp

/-- Witness for C2: `disconnect 1 2` on the fanout `[2, 3]` leaves `[3]`. -/
theorem disconnect_removes_single_sink_witness :
    net_two.connections n1 = some { pid := 8, outs := [2, 3] } ∧
      List.count 2 [2, 3] = 1 ∧ (disconnect net_two n1 2 sys_zero).1 = 0 ∧
      sinks (disconnect net_two n1 2 sys_zero).2 n1 =
        if List.erase [2, 3] (2 : Int) = [] then none else some (List.erase [2, 3] (2 : Int)) :=
  ⟨by decide, by decide, by decide,
    disconnect_removes_single_sink net_two n1 2 sys_zero { pid := 8, outs := [2, 3] }
      (by decide) (by decide) (by decide)⟩

/-- Claim C3, the code at the failing input: after `node 2 cat`, `connect 1 2 2`,
the command `remove 2` returns success, yet the fanout at node 1 is rebuilt
with one output cell that was never written; when the stack holds 2 there, the
removed node is still listed. -/
theorem remove_keeps_unwritten_sink :
    live net_twice n2 ∧
      (remove_node net_twice n2 (fun _ => sys_two) (ForkResult.child 30) (ForkResult.child 31)).1 = 0 ∧
      sinks (remove_node net_twice n2 (fun _ => sys_two) (ForkResult.child 30)
        (ForkResult.child 31)).2 n1 = some [2] := by
  rw [remove_node_eq]
  decide

/-- Claim C4, counterexample: after `node 1 cat`, `connect 1 2`, a `change 1`
whose last `fork()` fails returns 1 and leaves node 1 without a fanout, though
its output list was `[2]` before. -/
theorem change_fork_failed_loses_relay :
    live net_one n1 ∧ sinks net_one n1 = some [2] ∧
      (change net_one n1 1 (fun _ => sys_zero) (ForkResult.child 30) (ForkResult.child 31)
        (ForkResult.child 32) ForkResult.failed).1 = 1 ∧
      sinks (change net_one n1 1 (fun _ => sys_zero) (ForkResult.child 30) (ForkResult.child 31)
        (ForkResult.child 32) ForkResult.failed).2 n1 = none := by
  unfold change
  rw [remove_node_eq]
  decide

/-- Claim C4, amended: for a node `a` of the network, whenever `change a` returns
success the output list recorded for `a` is the one recorded before (same ids,
order and repetitions; no fanout afterwards exactly when there was none), and
`a` is in the network afterwards. -/
theorem change_preserves_outgoing (s : State) (a : NodeId) (flag : Int) (sys : NodeId → Sys)
    (f1 f2 npid pid : ForkResult) (hlive : live s a)
    (hok : (change s a flag sys f1 f2 npid pid).1 = 0) :
    sinks (change s a flag sys f1 f2 npid pid).2 a = sinks s a ∧
      live (change s a flag sys f1 f2 npid pid).2 a := by
  unfold change at hok ⊢
  rw [if_neg hlive] at hok ⊢
  cases hc : s.connections a with
  | none =>
    simp only [hc]
    refine ⟨?_, add_node_live _ _ _ _⟩
    simp only [sinks, add_node_connections, remove_node_connections s a sys f1 f2 hlive,
      relays_after_remove_self, hc]
  | some f =>
    simp only [hc] at hok ⊢
    by_cases hp : pid.toInt = -1
    · rw [if_pos hp] at hok
      simp at hok
    · rw [if_neg hp]
      refine ⟨?_, add_node_live _ _ _ _⟩
      simp [sinks, create_fanout, Fanout.numouts, hc]

/-- Witness for C4: after `node 1 cat`, `connect 1 2`, a successful `change 1`
keeps the output list `[2]`. -/
theorem change_preserves_outgoing_witness :
    sinks (change net_one n1 1 (fun _ => sys_zero) (ForkResult.child 30) (ForkResult.child 31)
        (ForkResult.child 32) (ForkResult.child 33)).2 n1 = sinks net_one n1 ∧
      live (change net_one n1 1 (fun _ => sys_zero) (ForkResult.child 30) (ForkResult.child 31)
        (ForkResult.child 32) (ForkResult.child 33)).2 n1 :=
  change_preserves_outgoing net_one n1 1 (fun _ => sys_zero) (ForkResult.child 30)
    (ForkResult.child 31) (ForkResult.child 32) (ForkResult.child 33) (by decide)
    (by unfold change; rw [remove_node_eq]; decide)

theorem disconnect_relay_mem (b : Int) (sys : Sys) (f g : Fanout) (hc : f.outs.count b ≤ 1)
    (h : disconnect_relay b sys (some f) = some g) :
    ∀ x ∈ g.outs, x ∈ f.outs ∧ x ≠ b := by
  by_cases hb : b ∈ f.outs
  · have hcount : f.outs.count b = 1 := by
      have := List.count_pos_iff.2 hb
      omega
    by_cases hp : sys.pid = ForkResult.failed
    · by_cases h1 : f.outs.length = 1 <;> simp [disconnect_relay, hb, h1, hp] at h
    · have hrel := disconnect_relay_of_count_one b sys f hcount hp
      rw [h] at hrel
      by_cases he : f.outs.erase b = []
      · rw [if_pos he] at hrel
        simp at hrel
      · rw [if_neg he] at hrel
        have hg : g.outs = f.outs.erase b := by simpa using hrel
        rw [hg]
        intro x hx
        refine ⟨List.mem_of_mem_erase hx, ?_⟩
        intro hxb
        rw [hxb] at hx
        have hpos := List.count_pos_iff.2 hx
        rw [List.count_erase_self] at hpos
        omega
  · have hg : g = f := by
      simp [disconnect_relay, hb] at h
      exact h.symm
    rw [hg]
    intro x hx
    exact ⟨hx, fun hxb => hb (hxb ▸ hx)⟩

theorem live_id_mono (s t : State) (h : ∀ i, live s i → live t i) (b : Int)
    (hb : live_id s b) : live_id t b := by
  obtain ⟨i, hi, hl⟩ := hb
  exact ⟨i, hi, h i hl⟩

theorem relays_ok_add_node (s : State) (n : NodeId) (flag : Int) (pid : ForkResult)
    (h : relays_ok s) : relays_ok (add_node s n flag pid).2 := by
  have hmono : ∀ i, live s i → live (add_node s n flag pid).2 i := by
    intro i hi
    by_cases hin : i = n
    · subst hin
      exact add_node_live s i flag pid
    · unfold live
      rw [add_node_nodes_of_ne s n i flag pid hin]
      exact hi
  intro i f hf
  rw [add_node_connections] at hf
  obtain ⟨h1, h2⟩ := h i f hf
  exact ⟨hmono i h1, fun b hb => live_id_mono s _ hmono b (h2 b hb)⟩

theorem relays_ok_connect (s : State) (n : NodeId) (outs : List Int) (pid : ForkResult)
    (r : Int × State) (h : relays_ok s) (hw : connects_live s (Command.connect n outs pid))
    (hr : connect s n outs pid = some r) : relays_ok r.2 := by
  obtain ⟨hn, houts⟩ := hw
  rw [connect_eq] at hr
  by_cases hfit : sinks_or_nil s n = []
  · rw [if_pos hfit] at hr
    rw [← Option.some.inj hr]
    intro i f hf
    simp only at hf
    by_cases hin : i = n
    · subst hin
      rw [Function.update_same] at hf
      by_cases hp : pid = ForkResult.failed
      · rw [if_pos hp] at hf
        exact absurd hf (by simp)
      · rw [if_neg hp] at hf
        have hfo : f.outs = outs := by
          rw [← Option.some.inj hf]
        exact ⟨hn, fun b hb => houts b (hfo ▸ hb)⟩
    · rw [Function.update_noteq hin] at hf
      exact h i f hf
  · rw [if_neg hfit] at hr
    exact absurd hr (by simp)

theorem relays_ok_disconnect (s : State) (a : NodeId) (b : Int) (sys : Sys)
    (h : relays_ok s) (hw : takes_single s (Command.disconnect a b sys)) :
    relays_ok (disconnect s a b sys).2 := by
  intro i f hf
  rw [disconnect_state] at hf ⊢
  simp only at hf
  by_cases hia : i = a
  · subst hia
    rw [Function.update_same] at hf
    cases hc : s.connections i with
    | none =>
      rw [hc] at hf
      simp [disconnect_relay] at hf
    | some g =>
      rw [hc] at hf
      obtain ⟨h1, h2⟩ := h i g hc
      have k2 := disconnect_relay_mem b sys g f (hw g hc) hf
      exact ⟨h1, fun x hx => h2 x (k2 x hx).1⟩
  · rw [Function.update_noteq hia] at hf
    exact h i f hf

theorem relays_ok_remove_node (s : State) (a : NodeId) (sys : NodeId → Sys) (f1 f2 : ForkResult)
    (h : relays_ok s)
    (hw : ∀ j f, j ≠ a → s.connections j = some f → f.outs.count (a.val : Int) ≤ 1) :
    relays_ok (remove_node s a sys f1 f2).2 := by
  by_cases hl : live s a
  · intro i f hf
    rw [remove_node_connections s a sys f1 f2 hl] at hf
    unfold relays_after_remove at hf
    by_cases hia : i = a
    · rw [if_pos hia] at hf
      exact absurd hf (by simp)
    · rw [if_neg hia] at hf
      cases hc : s.connections i with
      | none =>
        rw [hc] at hf
        simp [disconnect_relay] at hf
      | some g =>
        rw [hc] at hf
        obtain ⟨h1, h2⟩ := h i g hc
        have k2 := disconnect_relay_mem (a.val : Int) (sys i) g f (hw i g hia hc) hf
        have hkeep : ∀ j, j ≠ a → live s j → live (remove_node s a sys f1 f2).2 j := by
          intro j hj hlj
          unfold live
          rw [remove_node_nodes_of_ne s a j sys f1 f2 hj]
          exact hlj
        refine ⟨hkeep i hia h1, ?_⟩
        intro x hx
        obtain ⟨hxg, hxa⟩ := k2 x hx
        obtain ⟨j, hj, hlj⟩ := h2 x hxg
        have hja : j ≠ a := by
          intro hja
          subst hja
          exact hxa hj.symm
        exact ⟨j, hj, hkeep j hja hlj⟩
  · have h0 : s.nodes a = 0 := by
      unfold live at hl
      exact not_not.1 hl
    rw [remove_node_eq, if_pos h0]
    exact h

theorem relays_ok_change (s : State) (a : NodeId) (flag : Int) (sys : NodeId → Sys)
    (f1 f2 npid pid : ForkResult) (h : relays_ok s)
    (hw : ∀ j f, j ≠ a → s.connections j = some f → f.outs.count (a.val : Int) ≤ 1) :
    relays_ok (change s a flag sys f1 f2 npid pid).2 := by
  have h2 : relays_ok (add_node (remove_node s a sys f1 f2).2 a flag npid).2 :=
    relays_ok_add_node _ a flag npid (relays_ok_remove_node s a sys f1 f2 h hw)
  have hmono : ∀ j, live s j → live (add_node (remove_node s a sys f1 f2).2 a flag npid).2 j := by
    intro j hj
    by_cases hja : j = a
    · subst hja
      exact add_node_live _ j flag npid
    · unfold live
      rw [add_node_nodes_of_ne _ a j flag npid hja, remove_node_nodes_of_ne s a j sys f1 f2 hja]
      exact hj
  unfold change
  by_cases h0 : s.nodes a = 0
  · rw [if_pos h0]
    exact h
  · rw [if_neg h0]
    cases hc : s.connections a with
    | none => exact h2
    | some g =>
      simp only
      by_cases hp : pid.toInt = -1
      · rw [if_pos hp]
        exact h2
      · rw [if_neg hp]
        intro i f hf
        simp only at hf
        by_cases hia : i = a
        · subst hia
          rw [Function.update_same] at hf
          have hfo : f.outs = g.outs := by
            rw [← Option.some.inj hf]
            simp [create_fanout, Fanout.numouts]
          obtain ⟨_, g2⟩ := h i g hc
          refine ⟨add_node_live _ i flag npid, ?_⟩
          intro b hb
          rw [hfo] at hb
          exact live_id_mono s _ hmono b (g2 b hb)
        · rw [Function.update_noteq hia] at hf
          exact h2 i f hf

theorem inject_state (s : State) (a : NodeId) (fd : Int) (pid : ForkResult) :
    (inject s a fd pid).2 = s := by
  unfold inject
  by_cases h1 : s.nodes a = 0
  · simp [h1]
  · by_cases h2 : fd = -1
    · simp [h1, h2]
    · by_cases h3 : pid.toInt = -1 <;> simp [h1, h2, h3]

theorem relays_ok_interpretador (s : State) (c : Command) (r : Int × State) (h : relays_ok s)
    (hw : well_formed s c) (hr : interpretador s c = some r) : relays_ok r.2 := by
  cases c with
  | node id cmd pid =>
    rw [← Option.some.inj hr]
    exact relays_ok_add_node s id (discard_flag cmd) pid h
  | connect n outs pid => exact relays_ok_connect s n outs pid r h hw.1 hr
  | disconnect a b sys =>
    rw [← Option.some.inj hr]
    exact relays_ok_disconnect s a b sys h hw.2
  | inject a fd pid =>
    rw [← Option.some.inj hr, inject_state]
    exact h
  | remove a sys f1 f2 =>
    rw [← Option.some.inj hr]
    exact relays_ok_remove_node s a sys f1 f2 h hw.2
  | change a cmd sys f1 f2 npid pid =>
    rw [← Option.some.inj hr]
    exact relays_ok_change s a (discard_flag cmd) sys f1 f2 npid pid h hw.2
  | debug =>
    rw [← Option.some.inj hr]
    exact h
  | unknown =>
    rw [← Option.some.inj hr]
    exact h

theorem relays_ok_run (cmds : List Command) (s t : State) (h : relays_ok s)
    (hw : well_formed_run s cmds) (hr : run s cmds = some t) : relays_ok t := by
  induction cmds generalizing s with
  | nil =>
    rw [← Option.some.inj hr]
    exact h
  | cons c cs ih =>
    cases hi : interpretador s c with
    | none =>
      simp only [run, hi] at hr
      exact absurd hr (by simp)
    | some r =>
      simp only [run, hi] at hr
      have hw1 : well_formed s c := hw.1
      have hw2 : well_formed_run r.2 cs := by
        have := hw.2
        simp only [hi] at this
        exact this
      exact ih r.2 (relays_ok_interpretador s c r h hw1 hi) hw2 hr

/-- Claim C5, counterexample: `connect 1 2` on the empty network is accepted, so
a reachable state has a fanout at node 1 listing node 2 while neither node is
in the network. -/
theorem connect_accepts_unknown_nodes :
    Reachable net_orphan ∧ sinks net_orphan n1 = some [2] ∧ ¬ live net_orphan n1 ∧
      ¬ live_id net_orphan 2 := by
  refine ⟨⟨[Command.connect n1 [2] (ForkResult.child 5)], rfl⟩, by decide, by decide, ?_⟩
  rintro ⟨i, _, hl⟩
  exact hl rfl

/-- Claim C5, amended: in every state reached from the empty network by a
sequence of commands in which each `connect` names a source and outputs that
are in the network, and in which no `disconnect`, `remove` or `change` takes
away an output that a fanout lists more than once, every id that has a fanout
is in the network and every id listed by a fanout is in the network.  Only
runs with a defined result count: a `connect` on a source that already has
outputs stores past its array and is left open. -/
theorem well_formed_run_relays_live (cmds : List Command) (t : State)
    (hw : well_formed_run init_network cmds) (hr : run init_network cmds = some t)
    (i : NodeId) (f : Fanout) (hf : t.connections i = some f) :
    live t i ∧ ∀ b ∈ f.outs, live_id t b := by
  have h0 : relays_ok init_network := by
    intro j g hg
    exact absurd hg (by simp [init_network])
  exact relays_ok_run cmds init_network t h0 hw hr i f hf

/-- Witness for C5: after `node 1 cat`, `node 2 cat`, `connect 1 2 2` the fanout
at node 1 starts at a node of the network and lists nodes of the network. -/
theorem well_formed_run_relays_live_witness :
    live (state_after cmds_duplicate) n1 ∧
      ∀ b ∈ [(2 : Int), 2], live_id (state_after cmds_duplicate) b :=
  well_formed_run_relays_live cmds_duplicate (state_after cmds_duplicate)
    (by
      refine ⟨⟨trivial, trivial⟩, ⟨trivial, trivial⟩, ⟨⟨by decide, ?_⟩, trivial⟩, trivial⟩
      intro b hb
      have hb2 : b = 2 := by simpa using hb
      subst hb2
      exact ⟨n2, rfl, by decide⟩)
    rfl n1 { pid := 21, outs := [2, 2] } (by decide)

/-- Claim C7, counterexample: after `connect 1 2` on the empty network (a
reachable state in which node 2 is not in the network but is listed by the
fanout at node 1), `node 2 cat` and `remove 2` succeed and leave no fanout at
node 1. -/
theorem node_remove_drops_old_relay :
    Reachable net_orphan ∧ ¬ live net_orphan n2 ∧ sinks net_orphan n1 = some [2] ∧
      (add_node net_orphan n2 1 (ForkResult.child 6)).1 = 0 ∧
      (remove_node (add_node net_orphan n2 1 (ForkResult.child 6)).2 n2 (fun _ => sys_zero)
        (ForkResult.child 30) (ForkResult.child 31)).1 = 0 ∧
      sinks (remove_node (add_node net_orphan n2 1 (ForkResult.child 6)).2 n2 (fun _ => sys_zero)
        (ForkResult.child 30) (ForkResult.child 31)).2 n1 = none := by
  refine ⟨⟨[Command.connect n1 [2] (ForkResult.child 5)], rfl⟩, ?_⟩
  rw [remove_node_eq]
  decide

/-- Claim C7, amended: when `X` is not in the network, no fanout starts at `X`
and no fanout lists `X` among its outputs, then after `node X` and a successful
`remove X` the table `nodes` and the table of connections are the ones from
before. -/
theorem node_then_remove_restores (s : State) (x : NodeId) (flag : Int) (pid : ForkResult)
    (sys : NodeId → Sys) (f1 f2 : ForkResult) (hnot : ¬ live s x)
    (hroot : s.connections x = none)
    (hsink : ∀ i f, s.connections i = some f → (x.val : Int) ∉ f.outs)
    (hok : (remove_node (add_node s x flag pid).2 x sys f1 f2).1 = 0) :
    (remove_node (add_node s x flag pid).2 x sys f1 f2).2.nodes = s.nodes ∧
      (remove_node (add_node s x flag pid).2 x sys f1 f2).2.connections = s.connections := by
  have h0 : s.nodes x = 0 := by
    unfold live at hnot
    exact not_not.1 hnot
  have hl : live (add_node s x flag pid).2 x := add_node_live s x flag pid
  have hl0 : ¬ (add_node s x flag pid).2.nodes x = 0 := hl
  have hf : ¬ (f1 = ForkResult.failed ∨ f2 = ForkResult.failed) := by
    intro h
    rw [remove_node_fst, if_neg hl0, if_pos h] at hok
    exact absurd hok (by decide)
  constructor
  · rw [remove_node_eq, if_neg hl0, if_neg hf]
    funext i
    by_cases hi : i = x
    · subst hi
      simp [h0]
    · simp only [Function.update_noteq hi]
      exact add_node_nodes_of_ne s x i flag pid hi
  · rw [remove_node_connections _ _ _ _ _ hl]
    funext j
    unfold relays_after_remove
    rw [add_node_connections]
    by_cases hj : j = x
    · subst hj
      rw [if_pos rfl, hroot]
    · rw [if_neg hj]
      exact disconnect_relay_of_not_mem _ _ _ (fun f hfj => hsink j f hfj)

/-- Witness for C7: on the network with the fanout `[2, 3]` at node 1, `node 5`
and `remove 5` give the tables back. -/
theorem node_then_remove_restores_witness :
    (remove_node (add_node net_two n5 1 (ForkResult.child 6)).2 n5 (fun _ => sys_zero)
        (ForkResult.child 30) (ForkResult.child 31)).2.nodes = net_two.nodes ∧
      (remove_node (add_node net_two n5 1 (ForkResult.child 6)).2 n5 (fun _ => sys_zero)
        (ForkResult.child 30) (ForkResult.child 31)).2.connections = net_two.connections :=
  node_then_remove_restores net_two n5 1 (ForkResult.child 6) (fun _ => sys_zero)
    (ForkResult.child 30) (ForkResult.child 31) (by decide) (by decide)
    (by
      intro i f hf
      have hcases : i = n1 ∨ i ≠ n1 := Classical.em _
      rcases hcases with h | h
      · subst h
        have : f = { pid := 8, outs := [2, 3] } := by
          have h2 : net_two.connections n1 = some { pid := 8, outs := [2, 3] } := by decide
          rw [h2] at hf
          exact (Option.some.inj hf).symm
        subst this
        decide
      · have h2 : net_two.connections i = none := by
          simp [net_two, state_after, run, interpretador, connect_eq, sinks_or_nil, init_network,
            Function.update_noteq h]
        rw [h2] at hf
        exact absurd hf (by simp))
    (by rw [remove_node_fst]; decide)

/-- Claim C8: `disconnect a b` returns 2 (the nodes are not connected) exactly
when no fanout starts at `a` or `b` is not among the outputs of that fanout, and
whenever it returns 2 the tables `nodes`, `nodespid` and `connections` are
unchanged.  The same holds through `interpretador`, which hands the value on. -/
theorem disconnect_not_connected_iff (s : State) (a : NodeId) (b : Int) (sys : Sys) :
    ((disconnect s a b sys).1 = 2 ↔
        (s.connections a = none ∨ ∃ f, s.connections a = some f ∧ b ∉ f.outs)) ∧
      ((disconnect s a b sys).1 = 2 → (disconnect s a b sys).2 = s) ∧
      interpretador s (Command.disconnect a b sys) = some (disconnect s a b sys) := by
  have hcode : (disconnect s a b sys).1 = 2 ↔
      (s.connections a = none ∨ ∃ f, s.connections a = some f ∧ b ∉ f.outs) := by
    rw [disconnect_fst]
    cases hc : s.connections a with
    | none => simp [disconnect_code]
    | some f =>
      by_cases hb : b ∈ f.outs
      · by_cases h1 : f.outs.length = 1
        · simp [disconnect_code, hb, h1]
        · by_cases hp : sys.pid = ForkResult.failed <;> simp [disconnect_code, hb, h1, hp]
      · simp [disconnect_code, hb]
  refine ⟨hcode, ?_, rfl⟩
  intro h2
  rw [disconnect_state]
  rcases hcode.1 h2 with hn | ⟨f, hf, hb⟩
  · rw [hn]
    apply State.ext
    · rfl
    · rfl
    · simp [disconnect_relay, ← hn]
  · rw [hf]
    apply State.ext
    · rfl
    · rfl
    · simp [disconnect_relay, hb, ← hf]

/-- Witness for C8: after `node 5 cat`, `disconnect 5 6` returns 2 and changes
nothing. -/
theorem disconnect_not_connected_iff_witness :
    (disconnect net_five n5 6 sys_zero).1 = 2 ∧ (disconnect net_five n5 6 sys_zero).2 = net_five :=
  ⟨by decide, (disconnect_not_connected_iff net_five n5 6 sys_zero).2.1 (by decide)⟩

/-- Claim C9: `node id` returns 2 (the node already exists) exactly when `id` is
in the network, and then the tables, the recorded pid of `id` included, are
unchanged; otherwise it returns 0, `id` is in the network afterwards, the entry
of `nodes` of every other id is unchanged and so is the table of connections. -/
theorem add_node_already_exists_iff (s : State) (n : NodeId) (flag : Int) (pid : ForkResult) :
    ((add_node s n flag pid).1 = 2 ↔ live s n) ∧
      (live s n → (add_node s n flag pid).2 = s) ∧
      (¬ live s n →
        (add_node s n flag pid).1 = 0 ∧ live (add_node s n flag pid).2 n ∧
          (∀ i, i ≠ n → (add_node s n flag pid).2.nodes i = s.nodes i) ∧
          (add_node s n flag pid).2.connections = s.connections) := by
  refine ⟨?_, ?_, ?_⟩
  · unfold add_node live
    by_cases h : s.nodes n = 0 <;> simp [h]
  · intro h
    rw [add_node_of_live s n flag pid h]
  · intro h
    refine ⟨?_, add_node_live s n flag pid,
      fun i hi => add_node_nodes_of_ne s n i flag pid hi, add_node_connections s n flag pid⟩
    have h0 : s.nodes n = 0 := by
      unfold live at h
      exact not_not.1 h
    unfold add_node
    simp [h0]

/-- Witness for C9: the second `node 5 cat` returns 2 and changes nothing, the
first one returns 0 and puts node 5 in the network. -/
theorem add_node_already_exists_iff_witness :
    (add_node net_five n5 1 (ForkResult.child 11)).2 = net_five ∧
      ((add_node init_network n5 1 (ForkResult.child 10)).1 = 0 ∧
        live (add_node init_network n5 1 (ForkResult.child 10)).2 n5 ∧
        (∀ i, i ≠ n5 →
          (add_node init_network n5 1 (ForkResult.child 10)).2.nodes i = init_network.nodes i) ∧
        (add_node init_network n5 1 (ForkResult.child 10)).2.connections =
          init_network.connections) :=
  ⟨(add_node_already_exists_iff net_five n5 1 (ForkResult.child 11)).2.1 (by decide),
    (add_node_already_exists_iff init_network n5 1 (ForkResult.child 10)).2.2 (by decide)⟩

/-- Claim C10: when `id` is not in the network, each of `remove id`, `change id`
and `inject id` returns 2 (the node does not exist) and leaves the tables
unchanged; when `id` is in the network none of the three returns 2. -/
theorem not_found_iff_not_live (s : State) (a : NodeId) (flag fd : Int) (sys : NodeId → Sys)
    (f1 f2 npid pid : ForkResult) :
    (¬ live s a →
        remove_node s a sys f1 f2 = (2, s) ∧ change s a flag sys f1 f2 npid pid = (2, s) ∧
          inject s a fd pid = (2, s)) ∧
      (live s a →
        (remove_node s a sys f1 f2).1 ≠ 2 ∧ (change s a flag sys f1 f2 npid pid).1 ≠ 2 ∧
          (inject s a fd pid).1 ≠ 2) := by
  constructor
  · intro h
    have h0 : s.nodes a = 0 := by
      unfold live at h
      exact not_not.1 h
    refine ⟨?_, ?_, ?_⟩
    · rw [remove_node_eq, if_pos h0]
    · unfold change
      rw [if_pos h0]
    · unfold inject
      rw [if_pos h0]
  · intro h
    have h0 : ¬ s.nodes a = 0 := h
    refine ⟨?_, ?_, ?_⟩
    · rw [remove_node_fst, if_neg h0]
      by_cases hf : f1 = ForkResult.failed ∨ f2 = ForkResult.failed <;> simp [hf]
    · unfold change
      rw [if_neg h0]
      cases hc : s.connections a with
      | none => simp
      | some f => by_cases hp : pid.toInt = -1 <;> simp [hp]
    · unfold inject
      rw [if_neg h0]
      by_cases hfd : fd = -1
      · simp [hfd]
      · by_cases hp : pid.toInt = -1 <;> simp [hfd, hp]

/-- Witness for C10: on the empty network `remove 5`, `change 5` and `inject 5`
return 2; after `node 5 cat` none of them does. -/
theorem not_found_iff_not_live_witness :
    (remove_node init_network n5 (fun _ => sys_zero) (ForkResult.child 1) (ForkResult.child 2) =
        (2, init_network) ∧
      change init_network n5 1 (fun _ => sys_zero) (ForkResult.child 1) (ForkResult.child 2)
        (ForkResult.child 3) (ForkResult.child 4) = (2, init_network) ∧
      inject init_network n5 3 (ForkResult.child 4) = (2, init_network)) ∧
    ((remove_node net_five n5 (fun _ => sys_zero) (ForkResult.child 1) (ForkResult.child 2)).1 ≠ 2 ∧
      (change net_five n5 1 (fun _ => sys_zero) (ForkResult.child 1) (ForkResult.child 2)
        (ForkResult.child 3) (ForkResult.child 4)).1 ≠ 2 ∧
      (inject net_five n5 3 (ForkResult.child 4)).1 ≠ 2) :=
  ⟨(not_found_iff_not_live init_network n5 1 3 (fun _ => sys_zero) (ForkResult.child 1)
      (ForkResult.child 2) (ForkResult.child 3) (ForkResult.child 4)).1 (by decide),
    (not_found_iff_not_live net_five n5 1 3 (fun _ => sys_zero) (ForkResult.child 1)
      (ForkResult.child 2) (ForkResult.child 3) (ForkResult.child 4)).2 (by decide)⟩

theorem strcmp_minus_eq_zero_iff (t : Turn) (hb : 0 < t.bytes) (hc : c_string t) :
    strcmp_minus t.buffer = 0 ↔ record t = [45] := by
  have hpos : 0 < t.bytes.toNat := by omega
  obtain ⟨hin, hend⟩ := hc
  unfold strcmp_minus record
  constructor
  · intro h
    by_cases hcond : t.buffer 0 = 45 ∧ t.buffer 1 = 0
    · have h1 : t.bytes.toNat = 1 := by
        by_contra hne
        exact hin 1 (by omega) hcond.2
      rw [h1]
      simp [List.range_succ, hcond.1]
    · rw [if_neg hcond] at h
      exact absurd h (by decide)
  · intro h
    have hlen : t.bytes.toNat = 1 := by
      have := congrArg List.length h
      simpa using this
    rw [hlen] at h hend
    have h0 : t.buffer 0 = 45 := by simpa [List.range_succ] using h
    rw [if_pos ⟨h0, hend⟩]

/-- Claim C11, counterexample: with one output, a record of three bytes that
starts with the minus sign followed by a zero byte is not the one-character
sentinel, yet `strcmp` takes it for the sentinel and nothing is written. -/
theorem fanout_skips_record_with_zero_byte :
    record { stopfan := 0, bytes := 3, buffer := cells [45, 0, 120] } = [45, 0, 120] ∧
      fanout 1 [{ stopfan := 0, bytes := 3, buffer := cells [45, 0, 120] }] = [] ∧
      expected_writes 1 [{ stopfan := 0, bytes := 3, buffer := cells [45, 0, 120] }] =
        [{ out := 0, data := [45, 0, 120] }] := by
  decide

/-- Claim C11, amended: with `numouts` outputs, the stop flag never set, and
every record left in the buffer as a C string (no zero byte inside it, a zero
byte after it), the writes of `fanout` are exactly, for each record in input
order that is not the one-character sentinel `-`, one write of the bytes of the
record to output 0, then 1, up to `numouts - 1`; the sentinel gives no write. -/
theorem fanout_writes_each_record (numouts : Nat) (turns : List Turn)
    (h : ∀ t ∈ turns, t.stopfan = 0 ∧ 0 < t.bytes ∧ c_string t) :
    fanout numouts turns = expected_writes numouts turns := by
  induction turns with
  | nil => rfl
  | cons t ts ih =>
    obtain ⟨hs, hb, hc⟩ := h t (List.mem_cons_self t ts)
    have ih2 := ih (fun u hu => h u (List.mem_cons_of_mem t hu))
    have hiff := strcmp_minus_eq_zero_iff t hb hc
    unfold expected_writes at ih2 ⊢
    rw [fanout, if_neg (by simpa using hs), if_pos hb, ih2, List.filter_cons]
    by_cases hr : record t = [45]
    · have hz : strcmp_minus t.buffer = 0 := hiff.2 hr
      simp [hz, hr]
    · have hz : strcmp_minus t.buffer ≠ 0 := fun hz0 => hr (hiff.1 hz0)
      simp [hz, hr]

/-- Witness for C11: with two outputs, the records `a`, `-`, `bc` give the
writes of `a` to outputs 0 and 1, then of `bc` to outputs 0 and 1. -/
theorem fanout_writes_each_record_witness :
    fanout 2 [{ stopfan := 0, bytes := 1, buffer := cells [97] },
        { stopfan := 0, bytes := 1, buffer := cells [45] },
        { stopfan := 0, bytes := 2, buffer := cells [98, 99] }] =
      expected_writes 2 [{ stopfan := 0, bytes := 1, buffer := cells [97] },
        { stopfan := 0, bytes := 1, buffer := cells [45] },
        { stopfan := 0, bytes := 2, buffer := cells [98, 99] }] :=
  fanout_writes_each_record 2 _ (by
    intro t ht
    simp only [List.mem_cons, List.mem_singleton, List.not_mem_nil, or_false] at ht
    rcases ht with rfl | rfl | rfl
    · refine ⟨rfl, by decide, ?_, by decide⟩
      intro k hk
      have : k = 0 := by simp at hk; omega
      subst this
      decide
    · refine ⟨rfl, by decide, ?_, by decide⟩
      intro k hk
      have : k = 0 := by simp at hk; omega
      subst this
      decide
    · refine ⟨rfl, by decide, ?_, by decide⟩
      intro k hk
      have : k = 0 ∨ k = 1 := by simp at hk; omega
      rcases this with rfl | rfl <;> decide)

theorem disconnect_relay_nonempty (b : Int) (sys : Sys) (f g : Fanout) (hf : f.outs ≠ [])
    (h : disconnect_relay b sys (some f) = some g) : g.outs ≠ [] := by
  by_cases hb : b ∈ f.outs
  · by_cases h1 : f.outs.length = 1
    · simp [disconnect_relay, hb, h1] at h
    · by_cases hp : sys.pid = ForkResult.failed
      · simp [disconnect_relay, hb, h1, hp] at h
      · simp only [disconnect_relay, hb, h1, hp, if_true, if_false, Option.some.injEq] at h
        have hlen := length_filter_ne_add_count f.outs b
        have hcnt : 0 < f.outs.count b := List.count_pos_iff.2 hb
        have hpos : 0 < f.outs.length := List.length_pos.2 hf
        intro hg
        have hl : g.outs.length = 0 := by rw [hg]; rfl
        rw [← h] at hl
        simp only [List.length_take, List.length_append, List.length_map, List.length_range']
          at hl
        have hne1 : f.outs.length ≠ 1 := h1
        omega
  · have hg : g = f := by
      simp [disconnect_relay, hb] at h
      exact h.symm
    rw [hg]
    exact hf

theorem relays_nonempty_disconnect (s : State) (a : NodeId) (b : Int) (sys : Sys)
    (h : relays_nonempty s) : relays_nonempty (disconnect s a b sys).2 := by
  intro i f hf
  rw [disconnect_state] at hf
  simp only at hf
  by_cases hia : i = a
  · subst hia
    rw [Function.update_same] at hf
    cases hc : s.connections i with
    | none =>
      rw [hc] at hf
      simp [disconnect_relay] at hf
    | some g =>
      rw [hc] at hf
      exact disconnect_relay_nonempty b sys g f (h i g hc) hf
  · rw [Function.update_noteq hia] at hf
    exact h i f hf

theorem relays_nonempty_remove_node (s : State) (a : NodeId) (sys : NodeId → Sys)
    (f1 f2 : ForkResult) (h : relays_nonempty s) :
    relays_nonempty (remove_node s a sys f1 f2).2 := by
  by_cases hl : live s a
  · intro i f hf
    rw [remove_node_connections s a sys f1 f2 hl] at hf
    unfold relays_after_remove at hf
    by_cases hia : i = a
    · rw [if_pos hia] at hf
      exact absurd hf (by simp)
    · rw [if_neg hia] at hf
      cases hc : s.connections i with
      | none =>
        rw [hc] at hf
        simp [disconnect_relay] at hf
      | some g =>
        rw [hc] at hf
        exact disconnect_relay_nonempty _ _ g f (h i g hc) hf
  · have h0 : s.nodes a = 0 := by
      unfold live at hl
      exact not_not.1 hl
    rw [remove_node_eq, if_pos h0]
    exact h

theorem relays_nonempty_interpretador (s : State) (c : Command) (r : Int × State)
    (h : relays_nonempty s) (hc : gives_output c) (hr : interpretador s c = some r) :
    relays_nonempty r.2 := by
  cases c with
  | node id cmd pid =>
    rw [← Option.some.inj hr]
    intro i f hf
    rw [add_node_connections] at hf
    exact h i f hf
  | connect n outs pid =>
    have hr2 : connect s n outs pid = some r := hr
    rw [connect_eq] at hr2
    by_cases hfit : sinks_or_nil s n = []
    · rw [if_pos hfit] at hr2
      rw [← Option.some.inj hr2]
      intro i f hf
      simp only at hf
      by_cases hin : i = n
      · subst hin
        rw [Function.update_same] at hf
        by_cases hp : pid = ForkResult.failed
        · rw [if_pos hp] at hf
          exact absurd hf (by simp)
        · rw [if_neg hp] at hf
          rw [← Option.some.inj hf]
          exact hc
      · rw [Function.update_noteq hin] at hf
        exact h i f hf
    · rw [if_neg hfit] at hr2
      exact absurd hr2 (by simp)
  | disconnect a b sys =>
    rw [← Option.some.inj hr]
    exact relays_nonempty_disconnect s a b sys h
  | inject a fd pid =>
    rw [← Option.some.inj hr, inject_state]
    exact h
  | remove a sys f1 f2 =>
    rw [← Option.some.inj hr]
    exact relays_nonempty_remove_node s a sys f1 f2 h
  | change a cmd sys f1 f2 npid pid =>
    rw [← Option.some.inj hr]
    have h2 : relays_nonempty
        (add_node (remove_node s a sys f1 f2).2 a (discard_flag cmd) npid).2 := by
      intro i f hf
      rw [add_node_connections] at hf
      exact relays_nonempty_remove_node s a sys f1 f2 h i f hf
    unfold change
    by_cases h0 : s.nodes a = 0
    · rw [if_pos h0]
      exact h
    · rw [if_neg h0]
      cases hca : s.connections a with
      | none => exact h2
      | some g =>
        simp only
        by_cases hp : pid.toInt = -1
        · rw [if_pos hp]
          exact h2
        · rw [if_neg hp]
          intro i f hf
          simp only at hf
          by_cases hia : i = a
          · subst hia
            rw [Function.update_same] at hf
            have hfo : f.outs = g.outs := by
              rw [← Option.some.inj hf]
              simp [create_fanout, Fanout.numouts]
            rw [hfo]
            exact h i g hca
          · rw [Function.update_noteq hia] at hf
            exact h2 i f hf
  | debug =>
    rw [← Option.some.inj hr]
    exact h
  | unknown =>
    rw [← Option.some.inj hr]
    exact h

theorem relays_nonempty_run (cmds : List Command) (s t : State) (h : relays_nonempty s)
    (hc : ∀ c ∈ cmds, gives_output c) (hr : run s cmds = some t) : relays_nonempty t := by
  induction cmds generalizing s with
  | nil =>
    rw [← Option.some.inj hr]
    exact h
  | cons c cs ih =>
    cases hi : interpretador s c with
    | none =>
      simp only [run, hi] at hr
      exact absurd hr (by simp)
    | some r =>
      simp only [run, hi] at hr
      exact ih r.2
        (relays_nonempty_interpretador s c r h (hc c (List.mem_cons_self c cs)) hi)
        (fun d hd => hc d (List.mem_cons_of_mem c hd)) hr

theorem relays_from_mono (s : State) (p q : Int → Prop) (hpq : ∀ b, p b → q b)
    (h : relays_from s p) : relays_from s q := by
  intro i f hf b hb
  exact hpq b (h i f hf b hb)

theorem relays_from_disconnect (s : State) (a : NodeId) (b : Int) (sys : Sys) (p : Int → Prop)
    (h : relays_from s p) (hw : takes_single s (Command.disconnect a b sys)) :
    relays_from (disconnect s a b sys).2 p := by
  intro i f hf
  rw [disconnect_state] at hf
  simp only at hf
  by_cases hia : i = a
  · subst hia
    rw [Function.update_same] at hf
    cases hc : s.connections i with
    | none =>
      rw [hc] at hf
      simp [disconnect_relay] at hf
    | some g =>
      rw [hc] at hf
      have k2 := disconnect_relay_mem b sys g f (hw g hc) hf
      exact fun x hx => h i g hc x (k2 x hx).1
  · rw [Function.update_noteq hia] at hf
    exact h i f hf

theorem relays_from_remove_node (s : State) (a : NodeId) (sys : NodeId → Sys)
    (f1 f2 : ForkResult) (p : Int → Prop) (h : relays_from s p)
    (hw : ∀ j f, j ≠ a → s.connections j = some f → f.outs.count (a.val : Int) ≤ 1) :
    relays_from (remove_node s a sys f1 f2).2 p := by
  by_cases hl : live s a
  · intro i f hf
    rw [remove_node_connections s a sys f1 f2 hl] at hf
    unfold relays_after_remove at hf
    by_cases hia : i = a
    · rw [if_pos hia] at hf
      exact absurd hf (by simp)
    · rw [if_neg hia] at hf
      cases hc : s.connections i with
      | none =>
        rw [hc] at hf
        simp [disconnect_relay] at hf
      | some g =>
        rw [hc] at hf
        have k2 := disconnect_relay_mem _ (sys i) g f (hw i g hia hc) hf
        exact fun x hx => h i g hc x (k2 x hx).1
  · have h0 : s.nodes a = 0 := by
      unfold live at hl
      exact not_not.1 hl
    rw [remove_node_eq, if_pos h0]
    exact h

theorem relays_from_interpretador (s : State) (c : Command) (r : Int × State) (p : Int → Prop)
    (h : relays_from s p) (hc : takes_single s c) (hr : interpretador s c = some r) :
    relays_from r.2 (fun b => p b ∨ b ∈ supplied_by c) := by
  have hw : relays_from s (fun b => p b ∨ b ∈ supplied_by c) :=
    relays_from_mono s p _ (fun b hb => Or.inl hb) h
  cases c with
  | node id cmd pid =>
    rw [← Option.some.inj hr]
    intro i f hf
    rw [add_node_connections] at hf
    exact hw i f hf
  | connect n outs pid =>
    have hr2 : connect s n outs pid = some r := hr
    rw [connect_eq] at hr2
    by_cases hfit : sinks_or_nil s n = []
    · rw [if_pos hfit] at hr2
      rw [← Option.some.inj hr2]
      intro i f hf
      simp only at hf
      by_cases hin : i = n
      · subst hin
        rw [Function.update_same] at hf
        by_cases hp : pid = ForkResult.failed
        · rw [if_pos hp] at hf
          exact absurd hf (by simp)
        · rw [if_neg hp] at hf
          rw [← Option.some.inj hf]
          exact fun b hb => Or.inr hb
      · rw [Function.update_noteq hin] at hf
        exact hw i f hf
    · rw [if_neg hfit] at hr2
      exact absurd hr2 (by simp)
  | disconnect a b sys =>
    rw [← Option.some.inj hr]
    exact relays_from_disconnect s a b sys _ hw hc
  | inject a fd pid =>
    rw [← Option.some.inj hr, inject_state]
    exact hw
  | remove a sys f1 f2 =>
    rw [← Option.some.inj hr]
    exact relays_from_remove_node s a sys f1 f2 _ hw hc
  | change a cmd sys f1 f2 npid pid =>
    rw [← Option.some.inj hr]
    have h2 : relays_from
        (add_node (remove_node s a sys f1 f2).2 a (discard_flag cmd) npid).2
        (fun b => p b ∨ b ∈ supplied_by (Command.change a cmd sys f1 f2 npid pid)) := by
      intro i f hf
      rw [add_node_connections] at hf
      exact relays_from_remove_node s a sys f1 f2 _ hw hc i f hf
    unfold change
    by_cases h0 : s.nodes a = 0
    · rw [if_pos h0]
      exact hw
    · rw [if_neg h0]
      cases hca : s.connections a with
      | none => exact h2
      | some g =>
        simp only
        by_cases hp : pid.toInt = -1
        · rw [if_pos hp]
          exact h2
        · rw [if_neg hp]
          intro i f hf
          simp only at hf
          by_cases hia : i = a
          · subst hia
            rw [Function.update_same] at hf
            have hfo : f.outs = g.outs := by
              rw [← Option.some.inj hf]
              simp [create_fanout, Fanout.numouts]
            rw [hfo]
            exact hw i g hca
          · rw [Function.update_noteq hia] at hf
            exact h2 i f hf
  | debug =>
    rw [← Option.some.inj hr]
    exact hw
  | unknown =>
    rw [← Option.some.inj hr]
    exact hw

theorem relays_from_run (cmds : List Command) (s t : State) (p : Int → Prop)
    (h : relays_from s p) (hc : takes_single_run s cmds) (hr : run s cmds = some t) :
    relays_from t (fun b => p b ∨ b ∈ supplied cmds) := by
  induction cmds generalizing s p with
  | nil =>
    rw [← Option.some.inj hr]
    exact relays_from_mono s p _ (fun b hb => Or.inl hb) h
  | cons c cs ih =>
    cases hi : interpretador s c with
    | none =>
      simp only [run, hi] at hr
      exact absurd hr (by simp)
    | some r =>
      simp only [run, hi] at hr
      have hc1 : takes_single s c := hc.1
      have hc2 : takes_single_run r.2 cs := by
        have := hc.2
        simp only [hi] at this
        exact this
      have hstep := relays_from_interpretador s c r p h hc1 hi
      have hrun := ih r.2 _ hstep hc2 hr
      refine relays_from_mono _ _ _ ?_ hrun
      intro b hb
      rcases hb with (hb | hb) | hb
      · exact Or.inl hb
      · exact Or.inr (by
          simp only [supplied, List.flatMap_cons, List.mem_append]
          exact Or.inl hb)
      · exact Or.inr (by
          simp only [supplied, List.flatMap_cons, List.mem_append]
          exact Or.inr hb)

/-- Claim C12, counterexample: after the command `connect 1` without outputs the
table has a fanout at node 1 with an empty output list; and after
`connect 1 2 2`, `disconnect 1 2` the fanout at node 1 has one output cell that
was never written, holding 0 here, an id no `connect` supplied. -/
theorem relay_with_empty_or_unwritten_sinks :
    Reachable (state_after cmds_empty_connect) ∧
      sinks (state_after cmds_empty_connect) n1 = some [] ∧
      Reachable (state_after cmds_twice_disconnect) ∧
      sinks (state_after cmds_twice_disconnect) n1 = some [0] ∧
      (0 : Int) ∉ supplied cmds_twice_disconnect :=
  ⟨⟨cmds_empty_connect, rfl⟩, by decide, ⟨cmds_twice_disconnect, rfl⟩, by decide, by decide⟩

/-- Claim C12, amended: in every state reached from the empty network by a
sequence of commands in which every `connect` names at least one output, every
fanout of the table has at least one output; and when moreover no
`disconnect`, `remove` or `change` takes away an output that a fanout lists
more than once, every output cell of every fanout holds an id that a `connect`
of the sequence supplied.  Only runs with a defined result count: a `connect`
on a source that already has outputs stores past its array and is left open. -/
theorem relays_nonempty_and_supplied (cmds : List Command) (t : State)
    (hr : run init_network cmds = some t) (i : NodeId) (f : Fanout)
    (hf : t.connections i = some f) :
    ((∀ c ∈ cmds, gives_output c) → f.outs ≠ []) ∧
      (takes_single_run init_network cmds → ∀ b ∈ f.outs, b ∈ supplied cmds) := by
  have hinit1 : relays_nonempty init_network := by
    intro j g hg
    exact absurd hg (by simp [init_network])
  have hinit2 : relays_from init_network (fun _ => False) := by
    intro j g hg
    exact absurd hg (by simp [init_network])
  constructor
  · intro hc
    exact relays_nonempty_run cmds init_network t hinit1 hc hr i f hf
  · intro hc b hb
    have := relays_from_run cmds init_network t _ hinit2 hc hr i f hf b hb
    rcases this with hfalse | hs
    · exact absurd hfalse id
    · exact hs

/-- Witness for C12: after `node 1 cat`, `node 2 cat`, `connect 1 2 2` the
fanout at node 1 has two outputs, both the id 2 that the `connect` supplied. -/
theorem relays_nonempty_and_supplied_witness :
    ([(2 : Int), 2] ≠ []) ∧ ∀ b ∈ [(2 : Int), 2], b ∈ supplied cmds_duplicate :=
  ⟨(relays_nonempty_and_supplied cmds_duplicate (state_after cmds_duplicate) rfl n1
      { pid := 21, outs := [2, 2] } (by decide)).1
      (by
        intro c hc
        simp only [cmds_duplicate, List.mem_cons, List.mem_singleton, List.not_mem_nil,
          or_false] at hc
        rcases hc with rfl | rfl | rfl
        · trivial
        · trivial
        · exact List.cons_ne_nil _ _),
    (relays_nonempty_and_supplied cmds_duplicate (state_after cmds_duplicate) rfl n1
      { pid := 21, outs := [2, 2] } (by decide)).2
      ⟨trivial, trivial, trivial, trivial⟩⟩

theorem change_connections_of_ne (s : State) (a j : NodeId) (flag : Int) (sys : NodeId → Sys)
    (f1 f2 npid pid : ForkResult) (hlive : live s a) (hj : j ≠ a) :
    (change s a flag sys f1 f2 npid pid).2.connections j =
      disconnect_relay (a.val : Int) (sys j) (s.connections j) := by
  have hbase : (add_node (remove_node s a sys f1 f2).2 a flag npid).2.connections j =
      disconnect_relay (a.val : Int) (sys j) (s.connections j) := by
    rw [add_node_connections, remove_node_connections s a sys f1 f2 hlive]
    unfold relays_after_remove
    rw [if_neg hj]
  unfold change
  rw [if_neg hlive]
  cases hc : s.connections a with
  | none => exact hbase
  | some g =>
    simp only
    by_cases hp : pid.toInt = -1
    · rw [if_pos hp]
      exact hbase
    · rw [if_neg hp]
      simp only [Function.update_noteq hj]
      exact hbase

/-- Claim C13, counterexample: after `node 2 cat`, `connect 1 2 3`, a `change 2`
returns success while the `fork()` that restarts the fanout of node 1 fails:
node 1 is left without fanout, its remaining output 3 is not kept. -/
theorem change_inbound_relay_lost :
    live net_inbound n2 ∧ sinks net_inbound n1 = some [2, 3] ∧
      (change net_inbound n2 1 (fun _ => sys_failed) (ForkResult.child 30) (ForkResult.child 31)
        (ForkResult.child 32) (ForkResult.child 33)).1 = 0 ∧
      sinks (change net_inbound n2 1 (fun _ => sys_failed) (ForkResult.child 30)
        (ForkResult.child 31) (ForkResult.child 32) (ForkResult.child 33)).2 n1 = none := by
  unfold change
  rw [remove_node_eq]
  decide

/-- Claim C13, amended: for a node `a` of the network and a fanout at another
source `j` that lists `a` at most once, after `change a` (whatever it returns,
success included) the fanout at `j` does not list `a`; if it did not list `a` it
is unchanged; if it did, it is absent when `a` was its only output or when the
`fork()` that restarts it failed, and otherwise its output list is the old one
with `a` removed, the other entries in order. -/
theorem change_drops_inbound (s : State) (a j : NodeId) (flag : Int) (sys : NodeId → Sys)
    (f1 f2 npid pid : ForkResult) (f : Fanout) (hlive : live s a) (hj : j ≠ a)
    (hrel : s.connections j = some f) (hcount : f.outs.count (a.val : Int) ≤ 1) :
    (∀ g, (change s a flag sys f1 f2 npid pid).2.connections j = some g →
        (a.val : Int) ∉ g.outs) ∧
      ((a.val : Int) ∉ f.outs → sinks (change s a flag sys f1 f2 npid pid).2 j = some f.outs) ∧
      ((a.val : Int) ∈ f.outs →
        sinks (change s a flag sys f1 f2 npid pid).2 j =
          if f.outs.erase (a.val : Int) = [] ∨ (sys j).pid = ForkResult.failed then none
          else some (f.outs.erase (a.val : Int))) := by
  have hconn := change_connections_of_ne s a j flag sys f1 f2 npid pid hlive hj
  rw [hrel] at hconn
  have hin : (a.val : Int) ∈ f.outs →
      (disconnect_relay (a.val : Int) (sys j) (some f)).map Fanout.outs =
        if f.outs.erase (a.val : Int) = [] ∨ (sys j).pid = ForkResult.failed then none
        else some (f.outs.erase (a.val : Int)) := by
    intro hmem
    have hc1 : f.outs.count (a.val : Int) = 1 := by
      have := List.count_pos_iff.2 hmem
      omega
    by_cases hp : (sys j).pid = ForkResult.failed
    · rw [if_pos (Or.inr hp)]
      by_cases h1 : f.outs.length = 1 <;> simp [disconnect_relay, hmem, h1, hp]
    · rw [disconnect_relay_of_count_one _ _ f hc1 hp]
      by_cases he : f.outs.erase (a.val : Int) = []
      · rw [if_pos he, if_pos (Or.inl he)]
      · rw [if_neg he, if_neg (fun h => h.elim he hp)]
  refine ⟨?_, ?_, ?_⟩
  · intro g hg
    rw [hconn] at hg
    by_cases hmem : (a.val : Int) ∈ f.outs
    · have hmap := hin hmem
      rw [hg] at hmap
      by_cases hcond : f.outs.erase (a.val : Int) = [] ∨ (sys j).pid = ForkResult.failed
      · rw [if_pos hcond] at hmap
        simp at hmap
      · rw [if_neg hcond] at hmap
        have hgo : g.outs = f.outs.erase (a.val : Int) := by simpa using hmap
        rw [hgo]
        intro hmem2
        have hpos := List.count_pos_iff.2 hmem2
        rw [List.count_erase_self] at hpos
        omega
    · have hgf : g = f := by
        simp [disconnect_relay, hmem] at hg
        exact hg.symm
      rw [hgf]
      exact hmem
  · intro hmem
    simp [sinks, hconn, disconnect_relay, hmem]
  · intro hmem
    simp only [sinks, hconn]
    exact hin hmem

/-- Witness for C13: after `node 2 cat`, `connect 1 2 3`, a `change 2` leaves
node 1 with the output list `[3]`. -/
theorem change_drops_inbound_witness :
    (∀ g, (change net_inbound n2 1 (fun _ => sys_zero) (ForkResult.child 30) (ForkResult.child 31)
          (ForkResult.child 32) (ForkResult.child 33)).2.connections n1 = some g →
        ((n2.val : Nat) : Int) ∉ g.outs) ∧
      (((n2.val : Nat) : Int) ∉ [(2 : Int), 3] →
        sinks (change net_inbound n2 1 (fun _ => sys_zero) (ForkResult.child 30)
          (ForkResult.child 31) (ForkResult.child 32) (ForkResult.child 33)).2 n1 =
          some [2, 3]) ∧
      (((n2.val : Nat) : Int) ∈ [(2 : Int), 3] →
        sinks (change net_inbound n2 1 (fun _ => sys_zero) (ForkResult.child 30)
          (ForkResult.child 31) (ForkResult.child 32) (ForkResult.child 33)).2 n1 =
          if List.erase [(2 : Int), 3] ((n2.val : Nat) : Int) = [] ∨
              sys_zero.pid = ForkResult.failed then none
          else some (List.erase [(2 : Int), 3] ((n2.val : Nat) : Int))) :=
  change_drops_inbound net_inbound n2 n1 1 (fun _ => sys_zero) (ForkResult.child 30)
    (ForkResult.child 31) (ForkResult.child 32) (ForkResult.child 33) { pid := 21, outs := [2, 3] }
    (by decide) (by decide) (by decide) (by decide)

end Controlador
